import Mathlib

/-!
Verification development for the DocClock appointment-management frontend
(`frontend/src`) and the backend Lifecycle Engine it talks to.

The client-side definitions below are shallow embeddings of the TypeScript
source: `api.ts` (`toBackend`, `fetchAppointments`, `deleteAppointment`),
`components/PatientFlow.tsx` (`handleCancel`, `handleReschedule`,
`handleInput`, `sortedAppointments`), `components/AppointmentModal.tsx`
(`handlePing`, `handleReschedule`, `handleCancel`, the action-button gating),
the `ProviderFlow` flagged-card actions, `App.tsx` (`filtersForUser`),
`hooks/useSlowLoading.ts` and `components/LoadingOverlay.tsx`.

The backend engine (create / patch / delete / list / summarize) is not part
of the frontend sources; definitions for it are modelled from the spec and
marked as such in their doc comments.

JavaScript `Date` values are abstracted by a `DateModel`: `parseMs` stands
for `new Date(s).getTime()` and `toISO` for rendering an epoch instant with
`Date.prototype.toISOString`.
-/

inductive AppointmentStatus where
  | Scheduled
  | Rescheduled
  | CheckedIn
  | Completed
  | Cancelled
deriving DecidableEq, Repr

inductive RiskLevel where
  | none
  | low
  | medium
  | high
deriving DecidableEq, Repr

inductive UserRole where
  | patient
  | provider
deriving DecidableEq, Repr

/-- The `Appointment` record of `types.ts`. The nullable-or-absent
back-references `patientUserId` / `providerUserId` are collapsed to
`Option String` (absent and null are not distinguished by any of the code
verified here), `notes?` to `Option String`. -/
structure Appointment where
  id : String
  patientName : String
  providerName : String
  patientUserId : Option String
  providerUserId : Option String
  appointmentTime : String
  reason : String
  location : String
  channel : String
  status : AppointmentStatus
  riskLevel : RiskLevel
  notes : Option String
deriving DecidableEq, Repr

/-- The `AppointmentUpdatePayload` of `types.ts`: a partial pick of the
patchable appointment fields; `none` means the field is absent from the
patch (TypeScript `undefined`). The two user-id fields are
`Option (Option String)`: the outer option is presence in the patch, the
inner one nullability of the stored value. -/
structure AppointmentUpdatePayload where
  appointmentTime : Option String := Option.none
  status : Option AppointmentStatus := Option.none
  riskLevel : Option RiskLevel := Option.none
  notes : Option String := Option.none
  reason : Option String := Option.none
  patientUserId : Option (Option String) := Option.none
  providerUserId : Option (Option String) := Option.none
deriving DecidableEq, Repr

/-- The `AppointmentFormValues` of `types.ts` (creation payload). Note the
type carries no `status` and no `riskLevel` field. -/
structure AppointmentFormValues where
  patientName : String
  providerName : String
  patientUserId : Option (Option String) := Option.none
  providerUserId : Option (Option String) := Option.none
  appointmentTime : String
  reason : String
  location : String
  channel : String
  notes : Option String := Option.none
deriving DecidableEq, Repr

/-- The `User` record of `types.ts`. -/
structure User where
  id : String
  fullName : String
  email : String
  role : UserRole
  createdAt : String
deriving DecidableEq, Repr

def statusToString : AppointmentStatus → String
  | .Scheduled => "Scheduled"
  | .Rescheduled => "Rescheduled"
  | .CheckedIn => "CheckedIn"
  | .Completed => "Completed"
  | .Cancelled => "Cancelled"

def riskToString : RiskLevel → String
  | .none => "none"
  | .low => "low"
  | .medium => "medium"
  | .high => "high"

/-- A JSON value appearing in a request body built by `toBackend`:
either a string or `null`. -/
inductive JsonVal where
  | str (s : String)
  | nul
deriving DecidableEq, Repr

def jsonOfNullable : Option String → JsonVal
  | Option.some s => .str s
  | Option.none => .nul

/-- One conditional `if (field !== undefined) mapped.key = value` line of
`toBackend` in `api.ts`: contributes the key/value pair exactly when the
field is present. -/
def optEntry (k : String) (v : Option JsonVal) : List (String × JsonVal) :=
  match v with
  | Option.some j => [(k, j)]
  | Option.none => []

/-- The `toBackend` mapping of `api.ts` specialised to an
`AppointmentUpdatePayload` argument (the `'patientName' in payload`-style
membership tests for fields the type does not carry are statically false).
Entries follow the source order of the `if` statements. -/
def toBackendUpdate (p : AppointmentUpdatePayload) : List (String × JsonVal) :=
  optEntry "patient_user_id" (p.patientUserId.map jsonOfNullable) ++
  optEntry "provider_user_id" (p.providerUserId.map jsonOfNullable) ++
  optEntry "appointment_time" (p.appointmentTime.map .str) ++
  optEntry "reason" (p.reason.map .str) ++
  optEntry "status" (p.status.map (fun s => .str (statusToString s))) ++
  optEntry "risk_level" (p.riskLevel.map (fun r => .str (riskToString r))) ++
  optEntry "notes" (p.notes.map .str)

/-- The `toBackend` mapping of `api.ts` specialised to an
`AppointmentFormValues` argument. Required string fields are always
present (they are never `undefined`), so their entries are unconditional. -/
def toBackendForm (f : AppointmentFormValues) : List (String × JsonVal) :=
  [("patient_name", JsonVal.str f.patientName),
   ("provider_name", JsonVal.str f.providerName)] ++
  optEntry "patient_user_id" (f.patientUserId.map jsonOfNullable) ++
  optEntry "provider_user_id" (f.providerUserId.map jsonOfNullable) ++
  [("appointment_time", JsonVal.str f.appointmentTime),
   ("reason", JsonVal.str f.reason),
   ("location", JsonVal.str f.location),
   ("channel", JsonVal.str f.channel)] ++
  optEntry "notes" (f.notes.map .str)

/-- Whether a request body contains a given key. -/
def hasKey (k : String) (l : List (String × JsonVal)) : Bool :=
  l.any fun e => e.fst == k

/-- Abstraction of the JavaScript `Date` API as used by the client:
`parseMs s` is `new Date(s).getTime()` and `toISO t` renders the epoch
instant `t` with `toISOString`. -/
structure DateModel where
  parseMs : String → Int
  toISO : Int → String

/-- The composite `new Date(v).toISOString()` applied to a raw datetime
input, as in the `appointmentTime` branch of `handleInput` in
`PatientFlow.tsx`. -/
def handleInputTime (dm : DateModel) (v : String) : String :=
  dm.toISO (dm.parseMs v)

/-- The lifecycle actions through which the client issues an
`updateAppointment` patch. Each constructor carries the free inputs of the
corresponding handler: raw datetime-local values and the display strings
produced by `toLocaleDateString` / `toLocaleTimeString` / `toLocaleString`
on the current wall-clock time. -/
inductive ClientAction where
  | patientCancel (today : String)
  | patientReschedule (draft : String)
  | modalPing (now : String)
  | modalReschedule (draft now : String)
  | modalCancel (now : String)
  | flaggedSendReminder (now : String)
  | flaggedCheckIn
deriving DecidableEq, Repr

/-- The patch each client lifecycle action submits to `updateAppointment`,
read off the handlers in `PatientFlow.tsx` (`handleCancel`,
`handleReschedule`), `AppointmentModal.tsx` (`handlePing`,
`handleReschedule`, `handleCancel`) and the flagged-card buttons of
`ProviderFlow` (`Send reminder`, `Mark checked in`). `appt` is the
appointment the handler closes over. -/
def payloadFor (dm : DateModel) (appt : Appointment) :
    ClientAction → AppointmentUpdatePayload
  | .patientCancel today =>
      { status := Option.some .Cancelled,
        notes := Option.some ("Cancelled by patient on " ++ today) }
  | .patientReschedule draft =>
      { appointmentTime := Option.some (handleInputTime dm draft),
        status := Option.some .Rescheduled,
        notes := Option.some "Rescheduled within patient portal" }
  | .modalPing now =>
      { notes := Option.some
          ((appt.notes.getD "") ++ "\n[" ++ now ++ "] Provider sent reminder") }
  | .modalReschedule draft now =>
      { appointmentTime := Option.some (handleInputTime dm draft),
        status := Option.some .Rescheduled,
        notes := Option.some
          ((appt.notes.getD "") ++ "\n[" ++ now ++ "] Rescheduled by provider") }
  | .modalCancel now =>
      { status := Option.some .Cancelled,
        notes := Option.some
          ((appt.notes.getD "") ++ "\n[" ++ now ++ "] Cancelled by provider") }
  | .flaggedSendReminder now =>
      { notes := Option.some ("Reminder sent " ++ now) }
  | .flaggedCheckIn =>
      { status := Option.some .CheckedIn }

/-- The action buttons `AppointmentModal.tsx` renders for an appointment. -/
inductive ModalButton where
  | sendReminder
  | reschedule
  | cancel
  | delete
deriving DecidableEq, Repr

/-- The gating of the modal action buttons (`modal-actions` block of
`AppointmentModal.tsx`): `Delete` alone when the status is `Completed`,
otherwise `Send Reminder`, `Reschedule` and `Cancel Appointment`. -/
def modalActions (s : AppointmentStatus) : List ModalButton :=
  if s = .Completed then [.delete] else [.sendReminder, .reschedule, .cancel]

/-- The `sortedAppointments` memo of `PatientFlow.tsx`: the appointment
list sorted by the comparator
`new Date(a.appointmentTime).getTime() - new Date(b.appointmentTime).getTime()`,
which orders by the parsed instant. -/
def sortedAppointments (dm : DateModel) (l : List Appointment) : List Appointment :=
  l.mergeSort fun a b =>
    decide (dm.parseMs a.appointmentTime ≤ dm.parseMs b.appointmentTime)

/-- The `filtersForUser` function of `App.tsx` maps a logged-in user to the
fetch filters: `patientId = self` for a patient, `providerId = self` for a
provider. Wrapped in the `FetchParams` shape of `fetchAppointments`. -/
structure FetchParams where
  status : Option String := Option.none
  risk : Option String := Option.none
  patientId : Option String := Option.none
  providerId : Option String := Option.none
deriving DecidableEq, Repr

def filtersForUser (u : User) : FetchParams :=
  if u.role = .patient then { patientId := Option.some u.id }
  else { providerId := Option.some u.id }

/-- One `if (params?.x) query.append(key, x)` line of `fetchAppointments`
in `api.ts`: the parameter is appended when present and truthy (a
non-empty string). -/
def qEntry (k : String) (v : Option String) : List (String × String) :=
  match v with
  | Option.some s => if s = "" then [] else [(k, s)]
  | Option.none => []

/-- The query string built by `fetchAppointments` in `api.ts`. -/
def queryParams (p : FetchParams) : List (String × String) :=
  qEntry "status" p.status ++ qEntry "risk" p.risk ++
  qEntry "patient_id" p.patientId ++ qEntry "provider_id" p.providerId

/-- The query an appointment-list fetch issues for a logged-in user
(`loadAppointments` in `App.tsx` calls
`fetchAppointments(filtersForUser(user))`). -/
def clientQuery (u : User) : List (String × String) :=
  queryParams (filtersForUser u)

/-- Error taxonomy of the Lifecycle Engine boundary (spec section 7). -/
inductive LifecycleError where
  | InvalidTransition
  | InvalidState
  | NotFound
  | Forbidden
deriving DecidableEq, Repr

/-- Modelled from the spec: the status-transition table of section 4.1 of
the backend Lifecycle Engine (the engine itself is not among the frontend
sources). Allowed targets from `Scheduled` and `Rescheduled`:
`Rescheduled`, `CheckedIn`, `Cancelled`, `Completed`; from `CheckedIn`:
`Completed`, `Cancelled`; `Completed` and `Cancelled` are terminal. -/
def allowedTransition : AppointmentStatus → AppointmentStatus → Bool
  | .Scheduled, .Rescheduled => true
  | .Scheduled, .CheckedIn => true
  | .Scheduled, .Cancelled => true
  | .Scheduled, .Completed => true
  | .Rescheduled, .Rescheduled => true
  | .Rescheduled, .CheckedIn => true
  | .Rescheduled, .Cancelled => true
  | .Rescheduled, .Completed => true
  | .CheckedIn, .Completed => true
  | .CheckedIn, .Cancelled => true
  | _, _ => false

/-- Modelled from the spec: the field merge of the engine's partial
update (spec section 4.1, Update appointment). Only fields present in the
patch are changed; `notes`, when supplied, replaces the stored value
verbatim. -/
def mergePatch (rec : Appointment) (p : AppointmentUpdatePayload) : Appointment :=
  { rec with
    appointmentTime := p.appointmentTime.getD rec.appointmentTime
    status := p.status.getD rec.status
    riskLevel := p.riskLevel.getD rec.riskLevel
    notes := match p.notes with
      | Option.some n => Option.some n
      | Option.none => rec.notes
    reason := p.reason.getD rec.reason
    patientUserId := p.patientUserId.getD rec.patientUserId
    providerUserId := p.providerUserId.getD rec.providerUserId }

/-- Modelled from the spec: the engine's update operation on a single
record. A patch carrying a `status` is validated against the transition
table and rejected with `InvalidTransition` off the listed edges; a patch
without a `status` never changes the status. Ownership checks are outside
the fragment modelled here. -/
def applyPatch (rec : Appointment) (p : AppointmentUpdatePayload) :
    Except LifecycleError Appointment :=
  match p.status with
  | Option.none => .ok (mergePatch rec p)
  | Option.some s =>
      if allowedTransition rec.status s then .ok (mergePatch rec p)
      else .error .InvalidTransition

/-- Modelled from the spec: `updateAppointment` against the store —
resolve the id (`NotFound` otherwise), validate and apply the patch,
persist the merged record. -/
def updateInStore (store : List Appointment) (i : String)
    (p : AppointmentUpdatePayload) :
    Except LifecycleError (Appointment × List Appointment) :=
  match store.find? (fun a => a.id == i) with
  | Option.none => .error .NotFound
  | Option.some rec =>
      match applyPatch rec p with
      | .error e => .error e
      | .ok r => .ok (r, store.map fun a => if a.id == i then r else a)

/-- The store contents after an update attempt: unchanged when the
attempt is rejected. -/
def storeAfterUpdate (store : List Appointment) (i : String)
    (p : AppointmentUpdatePayload) : List Appointment :=
  match updateInStore store i p with
  | .ok pr => pr.snd
  | .error _ => store

/-- Modelled from the spec: `deleteAppointment` — allowed only when the
current status is `Completed` (`InvalidState` otherwise); deleting a
non-existent id yields `NotFound`. -/
def deleteFromStore (store : List Appointment) (i : String) :
    Except LifecycleError (List Appointment) :=
  match store.find? (fun a => a.id == i) with
  | Option.none => .error .NotFound
  | Option.some rec =>
      if rec.status = .Completed then .ok (store.filter fun a => !(a.id == i))
      else .error .InvalidState

/-- The store contents after a delete attempt: unchanged when the attempt
is rejected. -/
def storeAfterDelete (store : List Appointment) (i : String) : List Appointment :=
  match deleteFromStore store i with
  | .ok s' => s'
  | .error _ => store

/-- Modelled from the spec: the record `createAppointment` persists — the
form fields plus `status = Scheduled` and `riskLevel = none` (spec
section 4.1, Create appointment). -/
def createFromForm (f : AppointmentFormValues) (i : String) : Appointment :=
  { id := i,
    patientName := f.patientName,
    providerName := f.providerName,
    patientUserId := f.patientUserId.getD Option.none,
    providerUserId := f.providerUserId.getD Option.none,
    appointmentTime := f.appointmentTime,
    reason := f.reason,
    location := f.location,
    channel := f.channel,
    status := .Scheduled,
    riskLevel := RiskLevel.none,
    notes := f.notes }

/-- Modelled from the spec: the filter predicate of `listAppointments` —
all supplied filters are ANDed, and the ownership filters match on the
user-id back-references only, never on the display names. -/
def matchesFilters (f : FetchParams) (a : Appointment) : Bool :=
  (match f.status with
    | Option.none => true
    | Option.some s => statusToString a.status == s) &&
  (match f.risk with
    | Option.none => true
    | Option.some r => riskToString a.riskLevel == r) &&
  (match f.patientId with
    | Option.none => true
    | Option.some i => a.patientUserId == Option.some i) &&
  (match f.providerId with
    | Option.none => true
    | Option.some i => a.providerUserId == Option.some i)

/-- Modelled from the spec: `listAppointments` returns the matching
records in store order. -/
def listAppointments (f : FetchParams) (store : List Appointment) :
    List Appointment :=
  store.filter (matchesFilters f)

/-- Whether an appointment counts as active (status outside
`Cancelled` / `Completed`). -/
def isActive (a : Appointment) : Bool :=
  !(a.status == .Cancelled || a.status == .Completed)

/-- The four risk levels, in the order the summary reports them. -/
def riskLevels : List RiskLevel := [RiskLevel.none, .low, .medium, .high]

/-- The `SummarySnapshot` of `types.ts`; `risk_breakdown` is kept as an
ordered key/count list so that the presence of all four keys is a stated
fact rather than a typing artifact. -/
structure SummarySnapshot where
  total : Nat
  active : Nat
  cancelled : Nat
  completed : Nat
  risk_breakdown : List (RiskLevel × Nat)
deriving DecidableEq, Repr

/-- Modelled from the spec: the Summary Aggregator (spec section 4.2) — a
pure function over the appointment set computing `total`, `active`
(status outside `Cancelled` and `Completed`), `cancelled`, `completed`,
and the four-key zero-filled risk breakdown. -/
def summarize (l : List Appointment) : SummarySnapshot :=
  { total := l.length,
    active := l.countP fun a => isActive a,
    cancelled := l.countP fun a => a.status == .Cancelled,
    completed := l.countP fun a => a.status == .Completed,
    risk_breakdown := riskLevels.map fun lvl =>
      (lvl, l.countP fun a => a.riskLevel == lvl) }

def sumCounts (l : List (RiskLevel × Nat)) : Nat :=
  (l.map Prod.snd).sum

/-- The 2000 ms `SLOW_THRESHOLD` of `useSlowLoading.ts`. -/
def SLOW_THRESHOLD : Nat := 2000

/-- State of the `useSlowLoading` hook during one wrapped call: whether
the timeout is still armed and the current value of the
`showSlowLoading` flag. -/
structure SlowState where
  armed : Bool
  flag : Bool
deriving DecidableEq, Repr

inductive SlowEvent where
  | timerFire
  | settle
deriving DecidableEq, Repr

/-- One step of the `useSlowLoading` timeline: the armed timer firing
sets the flag (`setShowSlowLoading(true)`); settlement of the wrapped
promise runs the `finally` block, which clears the timeout and resets
the flag (`clearTimeout`; `setShowSlowLoading(false)`). -/
def slowStep : SlowState → SlowEvent → SlowState
  | s, .timerFire => if s.armed then { armed := false, flag := true } else s
  | _, .settle => { armed := false, flag := false }

/-- The timed events of one wrapped call that settles `settleAt`
milliseconds after `withSlowLoading` armed the timer: the timer fires at
the threshold only if the call is still pending then (otherwise the
`finally` block has already cleared it), and the settlement event runs
when the promise settles. -/
def slowEvents (settleAt : Nat) : List (Nat × SlowEvent) :=
  if SLOW_THRESHOLD < settleAt then
    [(SLOW_THRESHOLD, .timerFire), (settleAt, .settle)]
  else [(settleAt, .settle)]

/-- The initial hook state inside `withSlowLoading`: timeout armed, flag
down. -/
def slowInit : SlowState := { armed := true, flag := false }

/-- The flag timeline of one wrapped call: the value of
`showSlowLoading` after each event, paired with the event's time. -/
def slowTrace (settleAt : Nat) : List (Nat × Bool) :=
  ((slowEvents settleAt).foldl
    (fun acc ev =>
      let s' := slowStep acc.fst ev.snd
      (s', acc.snd ++ [(ev.fst, s'.flag)]))
    (slowInit, ([] : List (Nat × Bool)))).snd

/-- The hook state once the wrapped call has settled. -/
def slowFinal (settleAt : Nat) : SlowState :=
  (slowEvents settleAt).foldl (fun s ev => slowStep s ev.snd) slowInit

/-- The `withSlowLoading` wrapper of `useSlowLoading.ts`: it awaits the
wrapped call and returns its result (the `finally` block neither changes
the result nor swallows a rejection — `Except.error` models a rejected
promise), alongside the flag timeline of the call. -/
def withSlowLoading (ε α : Type) (settleAt : Nat) (outcome : Except ε α) :
    Except ε α × List (Nat × Bool) :=
  (outcome, slowTrace settleAt)

/-- The `LoadingOverlay` component: renders nothing when its `show` prop
is false (the binder is renamed because `show` is a Lean keyword). -/
def LoadingOverlay (shown : Bool) : Option String :=
  if shown then Option.some "loading-overlay" else Option.none

/-! Concrete fixtures used by counterexamples and witnesses. -/

def dmTrivial : DateModel :=
  { parseMs := fun _ => 0, toISO := fun _ => "1970-01-01T00:00:00.000Z" }

def apptEx : Appointment :=
  { id := "a1",
    patientName := "Jordan Carter",
    providerName := "Dr. Emilia Wong",
    patientUserId := Option.some "u1",
    providerUserId := Option.some "p1",
    appointmentTime := "2025-01-02T10:00:00.000Z",
    reason := "Specialist follow-up",
    location := "UVA Neurology - Pavilion II",
    channel := "in-person",
    status := .Scheduled,
    riskLevel := RiskLevel.none,
    notes := Option.some "Take meds" }

def apptCheckedIn : Appointment := { apptEx with status := .CheckedIn }

def apptDone : Appointment := { apptEx with id := "a2", status := .Completed }

def patchCheckIn : AppointmentUpdatePayload :=
  { status := Option.some .CheckedIn }

def patchTimeOnly : AppointmentUpdatePayload :=
  { appointmentTime := Option.some "2025-03-04T10:00:00.000Z" }

/-! Helper lemmas shared by several claims. -/

theorem data_chain2 (a b : String) : a.data <+: (a ++ b).data := by
  simp only [String.data_append]
  exact List.prefix_append _ _

theorem data_chain4 (a b c d : String) :
    a.data <+: (a ++ b ++ c ++ d).data := by
  simp only [String.data_append, List.append_assoc]
  exact List.prefix_append _ _

theorem applyPatch_ok_eq (rec : Appointment) (p : AppointmentUpdatePayload)
    (r : Appointment) (h : applyPatch rec p = .ok r) : r = mergePatch rec p := by
  unfold applyPatch at h
  split at h
  · exact (Except.ok.inj h).symm
  · split at h
    · exact (Except.ok.inj h).symm
    · simp at h

theorem hasKey_append (k : String) (l₁ l₂ : List (String × JsonVal)) :
    hasKey k (l₁ ++ l₂) = (hasKey k l₁ || hasKey k l₂) := by
  simp [hasKey, List.any_append]

theorem hasKey_optEntry (k k' : String) (v : Option JsonVal) :
    hasKey k (optEntry k' v) = (v.isSome && (k' == k)) := by
  cases v <;> simp [optEntry, hasKey]

theorem hasKey_nil (k : String) : hasKey k [] = false := rfl

theorem hasKey_cons (k k' : String) (j : JsonVal) (l : List (String × JsonVal)) :
    hasKey k ((k', j) :: l) = ((k' == k) || hasKey k l) := by
  simp [hasKey]

/-- C1 (amended): of the lifecycle actions that submit a `notes` value,
the three provider-modal actions (send reminder, reschedule, cancel in
`AppointmentModal.tsx`) keep the appointment's prior stored notes
unmodified at the start of the submitted notes, while the patient cancel,
the patient reschedule (`PatientFlow.tsx`) and the flagged-card send
reminder (`ProviderFlow`) submit a fresh notes string that replaces the
stored value wholesale. -/
theorem C1_notesAudit (dm : DateModel) (appt : Appointment)
    (today draft now : String) :
    ((appt.notes.getD "").data <+:
      (((payloadFor dm appt (.modalPing now)).notes).getD "").data)
  ∧ ((appt.notes.getD "").data <+:
      (((payloadFor dm appt (.modalReschedule draft now)).notes).getD "").data)
  ∧ ((appt.notes.getD "").data <+:
      (((payloadFor dm appt (.modalCancel now)).notes).getD "").data)
  ∧ (payloadFor dm appt (.patientCancel today)).notes
      = Option.some ("Cancelled by patient on " ++ today)
  ∧ (payloadFor dm appt (.patientReschedule draft)).notes
      = Option.some "Rescheduled within patient portal"
  ∧ (payloadFor dm appt (.flaggedSendReminder now)).notes
      = Option.some ("Reminder sent " ++ now) := by
  refine ⟨?_, ?_, ?_, rfl, rfl, rfl⟩ <;>
    exact data_chain4 _ _ _ _

/-- C1 (counterexample): the patient-portal cancel action
(`handleCancel` in `PatientFlow.tsx`) on an appointment whose stored
notes are `Take meds` submits the notes value
`Cancelled by patient on 1/1/2025`, which does not contain the prior
notes at its start — the stored note content is deleted, not appended
to. -/
theorem C1_notesReplaced :
    (payloadFor dmTrivial apptEx (.patientCancel "1/1/2025")).notes
      = Option.some "Cancelled by patient on 1/1/2025"
  ∧ apptEx.notes = Option.some "Take meds"
  ∧ ¬ ("Take meds".data <+: "Cancelled by patient on 1/1/2025".data) := by
  exact ⟨rfl, rfl, by decide⟩

/-- C2 (amended): against the spec-modelled Lifecycle Engine, a status
update succeeds only along the edges of the section-4.1 table, any other
attempted edge yields `InvalidTransition`, and the stored records are
unchanged after a rejected attempt. The final sentence of the claim is
corrected: the client's appointment modal offers the reschedule action —
which issues `status = 'Rescheduled'` — for every appointment whose
status is not `Completed`, including one whose status is `CheckedIn`. -/
theorem C2_statusTransitions :
    (∀ rec p r, applyPatch rec p = .ok r →
       ∀ s, p.status = Option.some s → allowedTransition rec.status s = true)
  ∧ (∀ rec p s, p.status = Option.some s →
       allowedTransition rec.status s = false →
       applyPatch rec p = .error .InvalidTransition)
  ∧ (∀ store i p e, updateInStore store i p = .error e →
       storeAfterUpdate store i p = store)
  ∧ (∀ s, s ≠ .Completed → ModalButton.reschedule ∈ modalActions s) := by
  refine ⟨?_, ?_, ?_, ?_⟩
  · intro rec p r h s hs
    by_cases ht : allowedTransition rec.status s = true
    · exact ht
    · simp only [applyPatch, hs] at h
      rw [if_neg ht] at h
      simp at h
  · intro rec p s hs ht
    simp [applyPatch, hs, ht]
  · intro store i p e h
    simp [storeAfterUpdate, h]
  · intro s hs
    cases s <;> simp_all [modalActions]

/-- C2 (counterexample): for an appointment whose current status is
`CheckedIn`, the modal still renders the reschedule button (the action
buttons are gated only on `status === 'Completed'`), and confirming it
issues a patch whose status is `Rescheduled` — so the client does issue
`Rescheduled` from `CheckedIn`. -/
theorem C2_clientIssuesRescheduleFromCheckedIn :
    apptCheckedIn.status = .CheckedIn
  ∧ ModalButton.reschedule ∈ modalActions apptCheckedIn.status
  ∧ (payloadFor dmTrivial apptCheckedIn
       (.modalReschedule "2025-02-03T10:00" "2/3/2025, 9:00:00 AM")).status
      = Option.some .Rescheduled := by
  exact ⟨rfl, by decide, rfl⟩

/-- C2 (witness): the amended theorem applied at concrete inputs — a
valid check-in edge, a rejected `CheckedIn → Rescheduled` edge, an
untouched store after a rejected update, and the reschedule button
offered on a checked-in appointment. -/
theorem C2_statusTransitions_witness :
    allowedTransition apptEx.status .CheckedIn = true
  ∧ applyPatch apptCheckedIn { status := Option.some .Rescheduled }
      = .error .InvalidTransition
  ∧ storeAfterUpdate [apptCheckedIn] "a1" { status := Option.some .Rescheduled }
      = [apptCheckedIn]
  ∧ ModalButton.reschedule ∈ modalActions .CheckedIn := by
  refine ⟨C2_statusTransitions.1 apptEx patchCheckIn
            (mergePatch apptEx patchCheckIn) rfl .CheckedIn rfl,
          C2_statusTransitions.2.1 apptCheckedIn
            { status := Option.some .Rescheduled } .Rescheduled rfl rfl,
          C2_statusTransitions.2.2.1 [apptCheckedIn] "a1"
            { status := Option.some .Rescheduled } .InvalidTransition ?_,
          C2_statusTransitions.2.2.2 .CheckedIn (by decide)⟩
  rfl

/-- C3: the spec-modelled engine patch changes only the fields present
in the patch — absent fields keep their prior value and the empty patch
returns the record unchanged — and on the client side the request body
built by `toBackend` for an `AppointmentUpdatePayload` contains a
backend key exactly when the corresponding payload field is present. -/
theorem C3_partialPatch :
    (∀ rec, applyPatch rec {} = .ok rec)
  ∧ (∀ rec p r, applyPatch rec p = .ok r →
        (p.appointmentTime = Option.none → r.appointmentTime = rec.appointmentTime)
      ∧ (p.status = Option.none → r.status = rec.status)
      ∧ (p.riskLevel = Option.none → r.riskLevel = rec.riskLevel)
      ∧ (p.notes = Option.none → r.notes = rec.notes)
      ∧ (p.reason = Option.none → r.reason = rec.reason)
      ∧ (p.patientUserId = Option.none → r.patientUserId = rec.patientUserId)
      ∧ (p.providerUserId = Option.none → r.providerUserId = rec.providerUserId))
  ∧ (∀ p, hasKey "appointment_time" (toBackendUpdate p) = p.appointmentTime.isSome
      ∧ hasKey "status" (toBackendUpdate p) = p.status.isSome
      ∧ hasKey "risk_level" (toBackendUpdate p) = p.riskLevel.isSome
      ∧ hasKey "notes" (toBackendUpdate p) = p.notes.isSome
      ∧ hasKey "reason" (toBackendUpdate p) = p.reason.isSome
      ∧ hasKey "patient_user_id" (toBackendUpdate p) = p.patientUserId.isSome
      ∧ hasKey "provider_user_id" (toBackendUpdate p) = p.providerUserId.isSome) := by
  refine ⟨fun rec => rfl, ?_, ?_⟩
  · intro rec p r h
    have hr := applyPatch_ok_eq rec p r h
    subst hr
    refine ⟨?_, ?_, ?_, ?_, ?_, ?_, ?_⟩ <;>
      (intro hn; simp [mergePatch, hn])
  · intro p
    refine ⟨?_, ?_, ?_, ?_, ?_, ?_, ?_⟩ <;>
      simp [toBackendUpdate, hasKey_append, hasKey_optEntry, Option.isSome_map]

/-- C3 (witness): the empty patch leaves a concrete record unchanged,
and a status-only patch leaves its notes unchanged. -/
theorem C3_partialPatch_witness :
    applyPatch apptEx {} = .ok apptEx
  ∧ (mergePatch apptEx patchCheckIn).notes = apptEx.notes := by
  exact ⟨C3_partialPatch.1 apptEx,
         (C3_partialPatch.2.1 apptEx patchCheckIn
            (mergePatch apptEx patchCheckIn) rfl).2.2.2.1 rfl⟩

/-- C4: for a logged-in user the client's appointment fetch carries
exactly one ownership filter, on the role-matching key and equal to the
user's own id (`filtersForUser` in `App.tsx`, `fetchAppointments` in
`api.ts`); and the spec-modelled `listAppointments` never returns a
record whose ownership back-reference differs from the requested id. -/
theorem C4_ownershipScope (u : User) (h : u.id ≠ "") :
    clientQuery u =
      (if u.role = .patient then [("patient_id", u.id)]
       else [("provider_id", u.id)])
  ∧ (∀ store r, r ∈ listAppointments (filtersForUser u) store →
       (u.role = .patient → r.patientUserId = Option.some u.id)
     ∧ (u.role = .provider → r.providerUserId = Option.some u.id)) := by
  constructor
  · cases hr : u.role <;>
      simp [clientQuery, queryParams, filtersForUser, qEntry, hr, h]
  · intro store r hmem
    have hmatch := (List.mem_filter.mp hmem).2
    constructor
    · intro hrole
      rw [filtersForUser, if_pos hrole] at hmatch
      simp [matchesFilters] at hmatch
      exact hmatch
    · intro hrole
      rw [filtersForUser, if_neg (by simp [hrole])] at hmatch
      simp [matchesFilters] at hmatch
      exact hmatch

def userPat : User :=
  { id := "u1", fullName := "Jordan Carter", email := "jordan@docclock.health",
    role := .patient, createdAt := "2025-01-01T00:00:00.000Z" }

/-- C4 (witness): for a concrete patient the fetch query is exactly
`patient_id = u1`, and a record returned by the filtered list carries
that patient id. -/
theorem C4_ownershipScope_witness :
    clientQuery userPat = [("patient_id", "u1")]
  ∧ apptEx.patientUserId = Option.some userPat.id := by
  have hc := C4_ownershipScope userPat (by decide)
  refine ⟨?_, ?_⟩
  · simpa using hc.1
  · exact (hc.2 [apptEx] apptEx (by decide)).1 rfl

/-- C5: against the spec-modelled engine, deletion succeeds exactly when
the record's status is `Completed` — every other status yields
`InvalidState` with the store unchanged — and a non-existent id yields
`NotFound`; on the client, the modal offers the delete action exactly
for appointments whose status is `Completed`. -/
theorem C5_deleteCompletedOnly :
    (∀ store i rec, store.find? (fun a => a.id == i) = Option.some rec →
        (rec.status = .Completed →
          deleteFromStore store i = .ok (store.filter fun a => !(a.id == i)))
      ∧ (rec.status ≠ .Completed →
          deleteFromStore store i = .error .InvalidState))
  ∧ (∀ store i, store.find? (fun a => a.id == i) = Option.none →
      deleteFromStore store i = .error .NotFound)
  ∧ (∀ store i e, deleteFromStore store i = .error e →
      storeAfterDelete store i = store)
  ∧ (∀ s, ModalButton.delete ∈ modalActions s ↔ s = .Completed) := by
  refine ⟨?_, ?_, ?_, ?_⟩
  · intro store i rec hf
    constructor
    · intro hdone
      simp [deleteFromStore, hf, hdone]
    · intro hnot
      simp [deleteFromStore, hf, hnot]
  · intro store i hf
    simp [deleteFromStore, hf]
  · intro store i e h
    simp [storeAfterDelete, h]
  · intro s
    cases s <;> simp [modalActions]

/-- C5 (witness): deleting a completed record succeeds, deleting a
scheduled one fails with `InvalidState` and leaves the store unchanged,
deleting a missing id fails with `NotFound`, and the modal offers delete
on a completed appointment. -/
theorem C5_deleteCompletedOnly_witness :
    deleteFromStore [apptDone] "a2" = .ok ([apptDone].filter fun a => !(a.id == "a2"))
  ∧ deleteFromStore [apptEx] "a1" = .error .InvalidState
  ∧ deleteFromStore ([] : List Appointment) "zz" = .error .NotFound
  ∧ storeAfterDelete [apptEx] "a1" = [apptEx]
  ∧ (ModalButton.delete ∈ modalActions .Completed ↔
      AppointmentStatus.Completed = .Completed) := by
  refine ⟨(C5_deleteCompletedOnly.1 [apptDone] "a2" apptDone rfl).1 rfl,
          (C5_deleteCompletedOnly.1 [apptEx] "a1" apptEx rfl).2 (by decide),
          C5_deleteCompletedOnly.2.1 [] "zz" rfl,
          C5_deleteCompletedOnly.2.2.1 [apptEx] "a1" .InvalidState ?_,
          C5_deleteCompletedOnly.2.2.2 .Completed⟩
  exact (C5_deleteCompletedOnly.1 [apptEx] "a1" apptEx rfl).2 (by decide)

theorem status_counts (l : List Appointment) :
    (l.countP fun a => isActive a)
      + (l.countP fun a => a.status == .Cancelled)
      + (l.countP fun a => a.status == .Completed) = l.length := by
  induction l with
  | nil => rfl
  | cons a t ih =>
      simp only [isActive, Bool.not_or] at ih ⊢
      cases hst : a.status <;>
        simp [List.countP_cons, hst] <;> omega

theorem risk_counts (l : List Appointment) :
    (l.countP fun a => a.riskLevel == RiskLevel.none)
      + (l.countP fun a => a.riskLevel == .low)
      + (l.countP fun a => a.riskLevel == .medium)
      + (l.countP fun a => a.riskLevel == .high) = l.length := by
  induction l with
  | nil => rfl
  | cons a t ih =>
      cases hrl : a.riskLevel <;>
        simp [List.countP_cons, hrl] <;> omega

/-- C6: the spec-modelled summary satisfies
`active + cancelled + completed = total`, the risk-breakdown counts sum
to `total`, and the breakdown always carries all four risk-level keys in
order (zero-filled when a level is unused). -/
theorem C6_summaryCounts (l : List Appointment) :
    (summarize l).active + (summarize l).cancelled + (summarize l).completed
      = (summarize l).total
  ∧ sumCounts (summarize l).risk_breakdown = (summarize l).total
  ∧ (summarize l).risk_breakdown.map Prod.fst = riskLevels := by
  refine ⟨status_counts l, ?_, rfl⟩
  have h := risk_counts l
  simp [summarize, sumCounts, riskLevels]
  omega

/-- C7: against the spec-modelled engine, a patch that carries
`appointmentTime` but no `status` leaves the stored status unchanged
(no auto-set to `Rescheduled`); and both client reschedule actions
(`handleReschedule` in `PatientFlow.tsx` and in `AppointmentModal.tsx`)
supply `appointmentTime` and `status = 'Rescheduled'` in one patch. -/
theorem C7_twoFieldReschedule (dm : DateModel) :
    (∀ rec p r, p.status = Option.none → applyPatch rec p = .ok r →
       r.status = rec.status)
  ∧ (∀ appt t,
       ((payloadFor dm appt (.patientReschedule t)).appointmentTime).isSome = true
     ∧ (payloadFor dm appt (.patientReschedule t)).status
         = Option.some .Rescheduled)
  ∧ (∀ appt t now,
       ((payloadFor dm appt (.modalReschedule t now)).appointmentTime).isSome = true
     ∧ (payloadFor dm appt (.modalReschedule t now)).status
         = Option.some .Rescheduled) := by
  refine ⟨?_, fun appt t => ⟨rfl, rfl⟩, fun appt t now => ⟨rfl, rfl⟩⟩
  intro rec p r hs h
  have hr := applyPatch_ok_eq rec p r h
  subst hr
  simp [mergePatch, hs]

/-- C7 (witness): a concrete time-only patch leaves the status at
`Scheduled`, and a concrete patient reschedule carries both fields. -/
theorem C7_twoFieldReschedule_witness :
    (mergePatch apptEx patchTimeOnly).status = apptEx.status
  ∧ ((payloadFor dmTrivial apptEx
        (.patientReschedule "2025-03-04T10:00")).appointmentTime).isSome = true := by
  exact ⟨(C7_twoFieldReschedule dmTrivial).1 apptEx patchTimeOnly
           (mergePatch apptEx patchTimeOnly) rfl rfl,
         ((C7_twoFieldReschedule dmTrivial).2.1 apptEx "2025-03-04T10:00").1⟩

/-- C8: the spec-modelled `createAppointment` starts every record at
`status = Scheduled` and `riskLevel = none`, and the client's create
request body never contains a `status` or `risk_level` key (the creation
payload type carries neither field, so `toBackend` never emits them). -/
theorem C8_createDefaults :
    (∀ f i, (createFromForm f i).status = .Scheduled
          ∧ (createFromForm f i).riskLevel = RiskLevel.none)
  ∧ (∀ f, hasKey "status" (toBackendForm f) = false
        ∧ hasKey "risk_level" (toBackendForm f) = false) := by
  refine ⟨fun f i => ⟨rfl, rfl⟩, ?_⟩
  intro f
  constructor <;>
    simp [toBackendForm, hasKey_append, hasKey_optEntry, hasKey_cons,
          hasKey_nil, Option.isSome_map]

/-- C9: every `appointmentTime` string a client lifecycle action puts in
an update payload is in the range of `toISOString` applied to a parsed
instant (each reschedule handler computes
`new Date(input).toISOString()`), the form input handler does the same,
and the patient view orders appointments by the parsed instant — the
sorted list is a permutation of the input, ordered by
`parseMs ∘ appointmentTime`, never by the raw string. -/
theorem C9_absoluteInstants (dm : DateModel) :
    (∀ appt a s, (payloadFor dm appt a).appointmentTime = Option.some s →
       ∃ t, s = dm.toISO t)
  ∧ (∀ v, handleInputTime dm v = dm.toISO (dm.parseMs v))
  ∧ (∀ l, (sortedAppointments dm l).Perm l
      ∧ List.Pairwise
          (fun a b => dm.parseMs a.appointmentTime ≤ dm.parseMs b.appointmentTime)
          (sortedAppointments dm l)) := by
  refine ⟨?_, fun v => rfl, ?_⟩
  · intro appt a s h
    cases a with
    | patientReschedule draft =>
        refine ⟨dm.parseMs draft, ?_⟩
        simp [payloadFor, handleInputTime] at h
        exact h.symm
    | modalReschedule draft now =>
        refine ⟨dm.parseMs draft, ?_⟩
        simp [payloadFor, handleInputTime] at h
        exact h.symm
    | patientCancel today => simp [payloadFor] at h
    | modalPing now => simp [payloadFor] at h
    | modalCancel now => simp [payloadFor] at h
    | flaggedSendReminder now => simp [payloadFor] at h
    | flaggedCheckIn => simp [payloadFor] at h
  · intro l
    have htrans : ∀ a b c : Appointment,
        decide (dm.parseMs a.appointmentTime ≤ dm.parseMs b.appointmentTime) = true →
        decide (dm.parseMs b.appointmentTime ≤ dm.parseMs c.appointmentTime) = true →
        decide (dm.parseMs a.appointmentTime ≤ dm.parseMs c.appointmentTime) = true := by
      intro a b c hab hbc
      simp only [decide_eq_true_eq] at hab hbc ⊢
      exact le_trans hab hbc
    have htotal : ∀ a b : Appointment,
        (decide (dm.parseMs a.appointmentTime ≤ dm.parseMs b.appointmentTime)
          || decide (dm.parseMs b.appointmentTime ≤ dm.parseMs a.appointmentTime))
          = true := by
      intro a b
      simp only [Bool.or_eq_true, decide_eq_true_eq]
      exact le_total _ _
    refine ⟨List.mergeSort_perm l _, ?_⟩
    have hp := List.sorted_mergeSort htrans htotal l
    exact hp.imp fun hab => of_decide_eq_true hab

/-- C9 (witness): a concrete patient reschedule payload carries an
`appointmentTime` in the range of the ISO encoder. -/
theorem C9_absoluteInstants_witness :
    ∃ t, handleInputTime dmTrivial "2025-03-04T10:00" = dmTrivial.toISO t := by
  exact (C9_absoluteInstants dmTrivial).1 apptEx
    (.patientReschedule "2025-03-04T10:00")
    (handleInputTime dmTrivial "2025-03-04T10:00") rfl

/-- C10: `withSlowLoading` returns exactly the wrapped call's outcome
(result or rejection), the slow-loading flag turns true only when the
call is still pending once the 2000 ms threshold elapses (and only at
the threshold, strictly before settlement), the flag is false once the
call settles, and a false flag renders no overlay. -/
theorem C10_slowLoadingSafe (ε α : Type) (settleAt : Nat)
    (outcome : Except ε α) :
    (withSlowLoading ε α settleAt outcome).fst = outcome
  ∧ (∀ t, (t, true) ∈ slowTrace settleAt →
       SLOW_THRESHOLD < settleAt ∧ t = SLOW_THRESHOLD ∧ t < settleAt)
  ∧ (slowFinal settleAt).flag = false
  ∧ LoadingOverlay false = Option.none := by
  refine ⟨rfl, ?_, ?_, rfl⟩
  · intro t ht
    by_cases hlt : SLOW_THRESHOLD < settleAt
    · simp [slowTrace, slowEvents, hlt, slowStep, slowInit] at ht
      exact ⟨hlt, ht, ht ▸ hlt⟩
    · simp [slowTrace, slowEvents, hlt, slowStep, slowInit] at ht
  · by_cases hlt : SLOW_THRESHOLD < settleAt <;>
      simp [slowFinal, slowEvents, hlt, slowStep, slowInit]

/-- C10 (witness): a call settling at 2500 ms returns its result
unchanged and shows the overlay only at the 2000 ms threshold, before
settlement. -/
theorem C10_slowLoadingSafe_witness :
    (withSlowLoading Unit Nat 2500 (Except.ok 7)).fst = Except.ok 7
  ∧ (SLOW_THRESHOLD < 2500 ∧ 2000 = SLOW_THRESHOLD ∧ 2000 < 2500) := by
  exact ⟨(C10_slowLoadingSafe Unit Nat 2500 (Except.ok 7)).1,
         (C10_slowLoadingSafe Unit Nat 2500 (Except.ok 7)).2.1 2000 (by decide)⟩
